import Mathlib

/-!
Verification of the welcomebot core (welcomebot.py).

Shallow embedding of the WelcomeBot class: the eligibility filter
`is_tootable`, the batch processor `retoot_batch`, and the scan driver
`retoot_intros`, together with the module-level `collect_env_vars`.

External collaborators (the Mastodon client) are modelled as a record of
pure functions: `timeline_hashtag` yields the fetched page, and the
reshare action `status_reblog` is modelled by a failure predicate
`reblog_fails` on post ids (the action either succeeds, or raises, which
the embedding renders as `Except.error`).  Side effects are made
observable: each batch reports the ordered list of reblog calls it made,
and the scan reports the ordered list of fetch calls (since_id, max_id)
and the concatenated reblog calls.  The unbounded `while True` loop of
`retoot_intros` is rendered with explicit fuel: `none` means the loop did
not terminate within the given fuel.
-/

/-- A toot (post) record, with the four fields the core reads. -/
structure Toot where
  id : Nat
  visibility : String
  reblog : Option Nat
  in_reply_to_id : Option Nat
  in_reply_to_account_id : Option Nat
deriving DecidableEq, Repr

/-- The Mastodon client interface as consumed by the core:
`timeline_hashtag hashtag since_id max_id limit` returns one page, and
`reblog_fails i` tells whether `status_reblog i` raises. -/
structure Client where
  timeline_hashtag : String → Option Nat → Option Nat → Nat → List Toot
  reblog_fails : Nat → Bool

/-- The WelcomeBot instance state set up by `__init__`. -/
structure WelcomeBot where
  client : Client
  batch_size : Nat
  dry_run : Bool

/-- Checks that the toot is public and is not a reply or retoot
(welcomebot.py, `is_tootable`). -/
def is_tootable (toot : Toot) : Bool :=
  toot.visibility == "public" &&
    toot.reblog == none &&
    toot.in_reply_to_id == none &&
    toot.in_reply_to_account_id == none

/-- An action error: the reblog calls made before the failure, in order,
and the id of the toot whose reblog raised. -/
abbrev PErr := List Nat × Nat

/-- The for-loop body of `retoot_batch`: walk the page in order, reblog
each tootable toot unless dry_run; a failing reblog raises at once.
Returns the ordered list of `status_reblog` calls made. -/
def run_page (client : Client) (dry_run : Bool) : List Toot → Except PErr (List Nat)
  | [] => Except.ok []
  | t :: ts =>
    if is_tootable t then
      if dry_run then
        run_page client dry_run ts
      else if client.reblog_fails t.id then
        Except.error ([], t.id)
      else
        match run_page client dry_run ts with
        | Except.ok rest => Except.ok (t.id :: rest)
        | Except.error (done, f) => Except.error (t.id :: done, f)
    else
      run_page client dry_run ts

/-- toots[-1]["id"] when the page is non-empty, else the input since_id
(the empty page short-circuits in `retoot_batch`). -/
def batchOldest (since_id : Option Nat) (toots : List Toot) : Option Nat :=
  match toots.getLast? with
  | none => since_id
  | some t => some t.id

/-- toots[0]["id"] when the page is non-empty, else the input since_id. -/
def batchLatest (since_id : Option Nat) (toots : List Toot) : Option Nat :=
  match toots.head? with
  | none => since_id
  | some t => some t.id

/-- The page a given fetch call (since_id, max_id) would return. -/
def pageAt (bot : WelcomeBot) (hashtag : String) (c : Option Nat × Option Nat) : List Toot :=
  bot.client.timeline_hashtag hashtag c.1 c.2 bot.batch_size

/-- welcomebot.py `retoot_batch`: fetch one page, return early on an
empty page, otherwise reblog the tootable toots in page order and return
(oldest_id, latest_id, batch_len) plus the observed reblog calls. -/
def retoot_batch (bot : WelcomeBot) (hashtag : String) (since_id max_id : Option Nat) :
    Except PErr (Option Nat × Option Nat × Nat × List Nat) :=
  let toots := bot.client.timeline_hashtag hashtag since_id max_id bot.batch_size
  let batch_len := toots.length
  if batch_len = 0 then
    Except.ok (since_id, since_id, batch_len, [])
  else
    match run_page bot.client bot.dry_run toots with
    | Except.ok calls =>
      Except.ok (batchOldest since_id toots, batchLatest since_id toots, batch_len, calls)
    | Except.error e => Except.error e

/-- A scan result: the returned cursor, the ordered fetch calls
(since_id, max_id) made, and the ordered reblog calls made. -/
abbrev ScanRes := Option Nat × List (Option Nat × Option Nat) × List Nat

/-- Prepend the current iteration's fetch call and reblog calls onto the
trace of the rest of the scan. -/
def wrapScan (since_id max_id : Option Nat) (calls : List Nat)
    (r : Option (Except PErr ScanRes)) : Option (Except PErr ScanRes) :=
  match r with
  | none => none
  | some (Except.error e) => some (Except.error e)
  | some (Except.ok (c, fs, rbs)) => some (Except.ok (c, (since_id, max_id) :: fs, calls ++ rbs))

/-- The `while True` loop of `retoot_intros`, with fuel.  State on entry:
`latest_id` fixed from the first page, `max_id` and `batch_len` from the
most recent `retoot_batch` call. -/
def scanGo (bot : WelcomeBot) (hashtag : String) (since_id latest_id max_id : Option Nat)
    (batch_len : Nat) : Nat → Option (Except PErr ScanRes)
  | 0 => none
  | fuel + 1 =>
    if batch_len < bot.batch_size then
      some (Except.ok (latest_id, [], []))
    else
      match retoot_batch bot hashtag since_id max_id with
      | Except.error e => some (Except.error e)
      | Except.ok (oid, _, blen, calls) =>
        wrapScan since_id max_id calls (scanGo bot hashtag since_id latest_id oid blen fuel)

/-- welcomebot.py `retoot_intros`: one initial batch with max_id unset,
then the loop; `latest_id` from the first batch is returned unchanged
when a page comes back short. -/
def retoot_intros (bot : WelcomeBot) (hashtag : String) (since_id : Option Nat)
    (fuel : Nat) : Option (Except PErr ScanRes) :=
  match retoot_batch bot hashtag since_id none with
  | Except.error e => some (Except.error e)
  | Except.ok (oid, lid, blen, calls) =>
    wrapScan since_id none calls (scanGo bot hashtag since_id lid oid blen fuel)

/-- C6: the eligibility predicate holds iff the toot is public, not a
reshare, and not a reply (neither reply reference present); it is a total
Bool-valued function, so it is pure with no error cases. -/
theorem is_tootable_iff (t : Toot) :
    is_tootable t = true ↔
      t.visibility = "public" ∧ t.reblog = none ∧
        t.in_reply_to_id = none ∧ t.in_reply_to_account_id = none := by
  simp [is_tootable, Bool.and_eq_true, and_assoc]

/-!
Environment-variable collection (welcomebot.py, `collect_env_vars`).

The Python function iterates a dict with `for (key, required) in env_vars:`.
Iterating a dict yields its keys (strings, in insertion order), and the
tuple target unpacks each key string into two one-character strings,
raising ValueError unless the key has length exactly 2.  The embedding
renders the environment as a partial map `String → Option String` and
errors as `Except.error` with the message kind.
-/

/-- Message of the ValueError raised when tuple unpacking of a string of
length other than 2 fails. -/
def unpack_error_msg : String := "ValueError: too many values to unpack"

/-- Message of the ValueError raised for a missing required variable. -/
def required_missing_msg : String := "ValueError: required environment variable not found"

/-- Message of the KeyError raised by environ lookup of an absent key. -/
def key_error_msg : String := "KeyError"

/-- Python tuple unpacking of a string into two targets: succeeds exactly
when the string has two characters, yielding its two one-character
substrings. -/
def unpack_pair (s : String) : Option (String × String) :=
  match s.data with
  | [a, b] => some (String.mk [a], String.mk [b])
  | _ => none

/-- The character set of the Python literal passed to `str.lstrip`. -/
def welcome_bot_chars : List Char := "WELCOME_BOT_".data

/-- Python `s.lstrip(cut)`: drop leading characters belonging to the cut
set (a character set, not a literal prefix). -/
def lstrip_chars (cut : List Char) (s : String) : String :=
  String.mk (s.data.dropWhile (fun c => cut.contains c))

/-- The keys of the `env_vars` dict literal, in insertion order, paired
with nothing: iterating the dict yields only these key strings. -/
def env_var_spec : List String :=
  ["WELCOME_BOT_API_BASE_URL", "WELCOME_BOT_USERNAME", "WELCOME_BOT_PASSWORD",
   "WELCOME_BOT_CLIENT_SECRET", "WELCOME_BOT_CLIENT_ID", "WELCOME_BOT_HASHTAG",
   "WELCOME_BOT_DRY_RUN", "WELCOME_BOT_BATCH_SIZE"]

/-- The loop of `collect_env_vars`: unpack the key into (key, required),
check required presence, then store `environ[key]` under the stripped,
lowercased name. -/
def collect_env_vars_go (environ : String → Option String) :
    List String → List (String × String) → Except String (List (String × String))
  | [], output => Except.ok output
  | k :: ks, output =>
    match unpack_pair k with
    | none => Except.error unpack_error_msg
    | some (key, required) =>
      if required ≠ "" ∧ environ key = none then
        Except.error required_missing_msg
      else
        match environ key with
        | none => Except.error key_error_msg
        | some v =>
          collect_env_vars_go environ ks
            (output ++ [(String.toLower (lstrip_chars welcome_bot_chars key), v)])

/-- welcomebot.py `collect_env_vars`: collect the parameters from the
environment or explode. -/
def collect_env_vars (environ : String → Option String) :
    Except String (List (String × String)) :=
  collect_env_vars_go environ env_var_spec []

/-- C10: collect_env_vars raises for every environment and never returns
the configuration mapping: the loop iterates the dict's keys and unpacks
each key string into a (key, required) pair, which fails on the very
first key (length 24, not 2), before the environment is even consulted. -/
theorem collect_env_vars_always_raises (environ : String → Option String) :
    collect_env_vars environ = Except.error unpack_error_msg := rfl

/-- A client whose timeline is always empty and whose reblog never
fails. -/
def emptyClient : Client := ⟨fun _ _ _ _ => [], fun _ => false⟩

/-- A bot constructed with batch_size = 0: `__init__` performs no
validation whatsoever. -/
def bot0 : WelcomeBot := ⟨emptyClient, 0, false⟩

/-- With batch_size = 0 the loop guard batch_len < batch_size is never
true, so the loop never exits, whatever the fuel. -/
theorem scanGo_bot0_none (hashtag : String) (s lf m : Option Nat) :
    ∀ fuel : Nat, scanGo bot0 hashtag s lf m 0 fuel = none := by
  intro fuel
  induction fuel generalizing m with
  | zero => rfl
  | succ n ih =>
    have hb : retoot_batch bot0 hashtag s m = Except.ok (s, s, 0, []) := rfl
    have hz : bot0.batch_size = 0 := rfl
    simp only [scanGo, hz, Nat.lt_irrefl, if_false, hb]
    rw [ih]
    rfl

/-- C9: with batch_size = 0 (a non-positive page size), the code raises
no configuration error: `__init__` stores it unchecked, the first page
fetch is performed and returns normally, and the scan never terminates
(the guard batch_len < batch_size can never hold), for any fuel. -/
theorem batch_size_zero_scan_attempted :
    (∀ (hashtag : String) (since_id : Option Nat),
        retoot_batch bot0 hashtag since_id none =
          Except.ok (since_id, since_id, 0, [])) ∧
    ∀ (hashtag : String) (since_id : Option Nat) (fuel : Nat),
        retoot_intros bot0 hashtag since_id fuel = none := by
  refine ⟨fun hashtag since_id => rfl, fun hashtag since_id fuel => ?_⟩
  have hb : retoot_batch bot0 hashtag since_id none =
      Except.ok (since_id, since_id, 0, []) := rfl
  simp only [retoot_intros, hb]
  rw [scanGo_bot0_none]
  rfl

/-- Dry run: the page loop makes no reblog call at all, whatever the
page contents. -/
theorem run_page_dry (c : Client) (l : List Toot) :
    run_page c true l = Except.ok [] := by
  induction l with
  | nil => rfl
  | cons t ts ih => cases h : is_tootable t <;> simp [run_page, h, ih]

/-- When no eligible toot's reblog fails and dry_run is off, the page
loop reblogs exactly the tootable toots, once each, in page order. -/
theorem run_page_ok (c : Client) (l : List Toot)
    (hnf : ∀ t ∈ l, is_tootable t = true → c.reblog_fails t.id = false) :
    run_page c false l =
      Except.ok ((l.filter (fun t => is_tootable t)).map (fun t => t.id)) := by
  induction l with
  | nil => rfl
  | cons t ts ih =>
    have ht := hnf t (List.mem_cons_self t ts)
    have ih' := ih (fun x hx hxe => hnf x (List.mem_cons_of_mem t hx) hxe)
    cases he : is_tootable t with
    | false => simp [run_page, he, List.filter_cons, ih']
    | true => simp [run_page, he, ht he, List.filter_cons, ih']

/-- When the reblog of an eligible toot t raises and no eligible toot
before it fails, the loop propagates the error having reblogged exactly
the eligible toots preceding t, and touches nothing after t. -/
theorem run_page_err (c : Client) (pre post : List Toot) (t : Toot)
    (ht : is_tootable t = true) (hf : c.reblog_fails t.id = true)
    (hpre : ∀ p ∈ pre, is_tootable p = true → c.reblog_fails p.id = false) :
    run_page c false (pre ++ t :: post) =
      Except.error ((pre.filter (fun p => is_tootable p)).map (fun p => p.id), t.id) := by
  induction pre with
  | nil => simp [run_page, ht, hf]
  | cons p ps ih =>
    have hp := hpre p (List.mem_cons_self p ps)
    have ih' := ih (fun x hx hxe => hpre x (List.mem_cons_of_mem p hx) hxe)
    cases he : is_tootable p with
    | false => simp [run_page, he, List.filter_cons, ih']
    | true => simp [run_page, he, hp he, List.filter_cons, ih']

/-- retoot_batch on an empty page returns (since_id, since_id, 0) with no
reblog call, for any since_id and max_id. -/
theorem retoot_batch_empty_page (bot : WelcomeBot) (hashtag : String) (s m : Option Nat)
    (h : pageAt bot hashtag (s, m) = []) :
    retoot_batch bot hashtag s m = Except.ok (s, s, 0, []) := by
  simp only [pageAt] at h
  simp [retoot_batch, h]

/-- Whenever retoot_batch returns normally, its three reported values are
the fetched page's boundary ids and length. -/
theorem retoot_batch_ok_shape (bot : WelcomeBot) (hashtag : String) (s m o l : Option Nat)
    (n : Nat) (cs : List Nat)
    (h : retoot_batch bot hashtag s m = Except.ok (o, l, n, cs)) :
    o = batchOldest s (pageAt bot hashtag (s, m)) ∧
      l = batchLatest s (pageAt bot hashtag (s, m)) ∧
      n = (pageAt bot hashtag (s, m)).length := by
  simp only [retoot_batch] at h
  simp only [pageAt]
  split at h
  · rename_i hlen
    rw [List.length_eq_zero] at hlen
    simp only [Except.ok.injEq, Prod.mk.injEq] at h
    obtain ⟨h1, h2, h3, _⟩ := h
    simp [← h1, ← h2, ← h3, hlen, batchOldest, batchLatest]
  · split at h
    · simp only [Except.ok.injEq, Prod.mk.injEq] at h
      obtain ⟨h1, h2, h3, _⟩ := h
      simp [← h1, ← h2, ← h3]
    · exact absurd h (by simp)

/-- Hashtag used by the concrete test clients. -/
def tagW : String := "introductions"

/-- An original public toot with the given id. -/
def mkToot (i : Nat) : Toot := ⟨i, "public", none, none, none⟩

/-- A public reply toot with the given id (ineligible). -/
def mkReply (i : Nat) : Toot := ⟨i, "public", none, some 1, some 2⟩

/-- A client whose timeline is empty for since_id = 5 and otherwise
holds one original toot and one reply; reblog never fails. -/
def clientS : Client :=
  ⟨fun _ s _ _ => if s = some 5 then [] else [mkToot 9, mkReply 8], fun _ => false⟩

/-- A live bot over clientS with page size 3. -/
def botS : WelcomeBot := ⟨clientS, 3, false⟩

/-- A dry-run bot over clientS with page size 3. -/
def botSdry : WelcomeBot := ⟨clientS, 3, true⟩

/-- C4: process_batch echoes the input since_id as both boundary ids with
count 0 on an empty fetch, for every since_id and max_id; on a non-empty
page it reports the last element's id, the first element's id and the
page length. -/
theorem retoot_batch_boundary_ids :
    (∀ (bot : WelcomeBot) (hashtag : String) (s m : Option Nat),
        pageAt bot hashtag (s, m) = [] →
        retoot_batch bot hashtag s m = Except.ok (s, s, 0, [])) ∧
    ∀ (bot : WelcomeBot) (hashtag : String) (s m o l : Option Nat) (n : Nat) (cs : List Nat)
      (t : Toot) (ts : List Toot),
        retoot_batch bot hashtag s m = Except.ok (o, l, n, cs) →
        pageAt bot hashtag (s, m) = t :: ts →
        o = some ((t :: ts).getLast (List.cons_ne_nil t ts)).id ∧
          l = some t.id ∧ n = (t :: ts).length := by
  refine ⟨fun bot hashtag s m h => retoot_batch_empty_page bot hashtag s m h,
    fun bot hashtag s m o l n cs t ts h hp => ?_⟩
  obtain ⟨h1, h2, h3⟩ := retoot_batch_ok_shape bot hashtag s m o l n cs h
  rw [hp] at h1 h2 h3
  subst h1 h2
  refine ⟨?_, ?_, h3⟩
  · simp [batchOldest, List.getLast?_eq_getLast_of_ne_nil (List.cons_ne_nil t ts)]
  · simp [batchLatest]

/-- Witness for C4 at the concrete clientS pages. -/
theorem retoot_batch_boundary_ids_witness :
    retoot_batch botS tagW (some 5) none = Except.ok (some 5, some 5, 0, []) ∧
    (some 8 = some ((mkToot 9 :: [mkReply 8]).getLast
        (List.cons_ne_nil (mkToot 9) [mkReply 8])).id ∧
      some 9 = some (mkToot 9).id ∧ 2 = (mkToot 9 :: [mkReply 8]).length) :=
  ⟨retoot_batch_boundary_ids.1 botS tagW (some 5) none rfl,
   retoot_batch_boundary_ids.2 botS tagW (some 1) none (some 8) (some 9) 2 [9]
     (mkToot 9) [mkReply 8] rfl rfl⟩

/-- C5: process_batch reblogs exactly the eligible toots of the page,
once each and in page order (so zero times for each ineligible toot), and
in dry-run it makes zero reblog calls regardless of eligibility. -/
theorem retoot_batch_reblog_calls :
    (∀ (bot : WelcomeBot) (hashtag : String) (s m : Option Nat),
        bot.dry_run = false →
        (∀ t ∈ pageAt bot hashtag (s, m), is_tootable t = true →
            bot.client.reblog_fails t.id = false) →
        retoot_batch bot hashtag s m =
          Except.ok (batchOldest s (pageAt bot hashtag (s, m)),
            batchLatest s (pageAt bot hashtag (s, m)),
            (pageAt bot hashtag (s, m)).length,
            ((pageAt bot hashtag (s, m)).filter
                (fun t => is_tootable t)).map (fun t => t.id))) ∧
    ∀ (bot : WelcomeBot) (hashtag : String) (s m : Option Nat),
        bot.dry_run = true →
        retoot_batch bot hashtag s m =
          Except.ok (batchOldest s (pageAt bot hashtag (s, m)),
            batchLatest s (pageAt bot hashtag (s, m)),
            (pageAt bot hashtag (s, m)).length, []) := by
  constructor
  · intro bot hashtag s m hdry hnf
    simp only [pageAt] at hnf ⊢
    simp only [retoot_batch, hdry]
    rw [run_page_ok bot.client _ hnf]
    split
    · rename_i hlen
      rw [List.length_eq_zero] at hlen
      simp [hlen, batchOldest, batchLatest]
    · rfl
  · intro bot hashtag s m hdry
    simp only [pageAt]
    simp only [retoot_batch, hdry]
    rw [run_page_dry bot.client]
    split
    · rename_i hlen
      rw [List.length_eq_zero] at hlen
      simp [hlen, batchOldest, batchLatest]
    · rfl

/-- Witness for C5: the live bot reblogs exactly the one eligible toot of
the page (the reply is skipped), and the dry-run bot reblogs nothing. -/
theorem retoot_batch_reblog_calls_witness :
    retoot_batch botS tagW (some 1) none =
      Except.ok (batchOldest (some 1) (pageAt botS tagW (some 1, none)),
        batchLatest (some 1) (pageAt botS tagW (some 1, none)),
        (pageAt botS tagW (some 1, none)).length,
        ((pageAt botS tagW (some 1, none)).filter
            (fun t => is_tootable t)).map (fun t => t.id)) ∧
    retoot_batch botSdry tagW (some 1) none =
      Except.ok (batchOldest (some 1) (pageAt botSdry tagW (some 1, none)),
        batchLatest (some 1) (pageAt botSdry tagW (some 1, none)),
        (pageAt botSdry tagW (some 1, none)).length, []) :=
  ⟨retoot_batch_reblog_calls.1 botS tagW (some 1) none rfl (fun _ _ _ => rfl),
   retoot_batch_reblog_calls.2 botSdry tagW (some 1) none rfl⟩

/-- C8: when the reblog of the k-th eligible toot of a page raises (and
no earlier eligible toot's reblog fails), process_batch propagates the
error with no retry, having reblogged exactly the eligible toots before
that position in page order, and never touching any toot after it. -/
theorem retoot_batch_error_prefix :
    ∀ (bot : WelcomeBot) (hashtag : String) (s m : Option Nat)
      (pre post : List Toot) (t : Toot),
      bot.dry_run = false →
      pageAt bot hashtag (s, m) = pre ++ t :: post →
      is_tootable t = true →
      bot.client.reblog_fails t.id = true →
      (∀ p ∈ pre, is_tootable p = true → bot.client.reblog_fails p.id = false) →
      retoot_batch bot hashtag s m =
        Except.error ((pre.filter (fun p => is_tootable p)).map (fun p => p.id), t.id) := by
  intro bot hashtag s m pre post t hdry hp ht hf hpre
  simp only [pageAt] at hp
  simp only [retoot_batch, hp, hdry]
  rw [run_page_err bot.client pre post t ht hf hpre]
  simp

/-- A client with a fixed four-toot page whose reblog fails exactly on
id 8. -/
def clientF : Client :=
  ⟨fun _ _ _ _ => [mkToot 9, mkReply 5, mkToot 8, mkToot 7], fun i => i == 8⟩

/-- A live bot over clientF with page size 5. -/
def botF : WelcomeBot := ⟨clientF, 5, false⟩

/-- Witness for C8: reblogging id 8 fails; only the eligible toot before
it (id 9) was reblogged, the reply was skipped, and id 7 after the
failure was never attempted. -/
theorem retoot_batch_error_prefix_witness :
    retoot_batch botF tagW (some 1) none = Except.error ([9], 8) := by
  have h := retoot_batch_error_prefix botF tagW (some 1) none
    [mkToot 9, mkReply 5] [mkToot 7] (mkToot 8) rfl rfl (by decide) rfl (by decide)
  simpa using h

/-- The loop never changes latest_id: whenever the scan loop exits
normally, the cursor it yields is exactly the latest_id it entered
with. -/
theorem scanGo_ok_cursor (bot : WelcomeBot) (hashtag : String)
    (s lf : Option Nat) :
    ∀ (fuel : Nat) (m : Option Nat) (bl : Nat) (c : Option Nat)
      (fs : List (Option Nat × Option Nat)) (rbs : List Nat),
      scanGo bot hashtag s lf m bl fuel = some (Except.ok (c, fs, rbs)) → c = lf := by
  intro fuel
  induction fuel with
  | zero => intro m bl c fs rbs h; exact absurd h (by simp [scanGo])
  | succ n ih =>
    intro m bl c fs rbs h
    simp only [scanGo] at h
    split at h
    · simp only [Option.some.injEq, Except.ok.injEq, Prod.mk.injEq] at h
      exact h.1.symm
    · split at h
      · simp at h
      · rename_i oid other blen calls heq
        simp only [wrapScan] at h
        split at h
        · simp at h
        · simp at h
        · rename_i r c2 fs2 rbs2 hr
          simp only [Option.some.injEq, Except.ok.injEq, Prod.mk.injEq] at h
          obtain ⟨hc, _, _⟩ := h
          subst hc
          exact ih _ _ _ _ _ hr

/-- The client of the spec's concrete scenario: page size 3, since_id 40;
the first fetch returns ids 50, 49, 48 (all eligible) and the fetch with
max_id 48 returns ids 47, 46; reblog never fails. -/
def client2 : Client :=
  ⟨fun _ s m _ =>
    if s = some 40 ∧ m = none then [mkToot 50, mkToot 49, mkToot 48]
    else if s = some 40 ∧ m = some 48 then [mkToot 47, mkToot 46]
    else [], fun _ => false⟩

/-- The scenario bot: client2, page size 3, live. -/
def bot2 : WelcomeBot := ⟨client2, 3, false⟩

/-- C1: whenever a scan completes, the cursor it returns is the id of the
first element of the very first page; in particular, when the first page
is full and any number of full-page continuations precede a short page,
latest_id is never overwritten by a later page's latest_id. -/
theorem retoot_intros_cursor_first_page (bot : WelcomeBot) (hashtag : String)
    (since_id : Option Nat) (fuel : Nat) (t0 : Toot) (ts : List Toot)
    (c : Option Nat) (fs : List (Option Nat × Option Nat)) (rbs : List Nat)
    (hp : pageAt bot hashtag (since_id, none) = t0 :: ts)
    (h : retoot_intros bot hashtag since_id fuel = some (Except.ok (c, fs, rbs))) :
    c = some t0.id := by
  simp only [retoot_intros] at h
  cases hb : retoot_batch bot hashtag since_id none with
  | error e => rw [hb] at h; simp at h
  | ok r =>
    obtain ⟨oid, lid, blen, calls⟩ := r
    rw [hb] at h
    obtain ⟨-, h2, -⟩ := retoot_batch_ok_shape bot hashtag since_id none oid lid blen calls hb
    rw [hp] at h2
    have hlid : lid = some t0.id := by simpa [batchLatest] using h2
    simp only [wrapScan] at h
    split at h
    · simp at h
    · simp at h
    · rename_i r c2 fs2 rbs2 hr
      simp only [Option.some.injEq, Except.ok.injEq, Prod.mk.injEq] at h
      obtain ⟨hc, -, -⟩ := h
      subst hc
      rw [scanGo_ok_cursor bot hashtag since_id lid fuel oid blen c2 fs2 rbs2 hr, hlid]

/-- Witness for C1 on the concrete scenario: the first page is full with
first element id 50, a second (short) page follows, and the scan returns
cursor 50. -/
theorem retoot_intros_cursor_first_page_witness :
    pageAt bot2 tagW (some 40, none) = mkToot 50 :: [mkToot 49, mkToot 48] ∧
      (some 50 : Option Nat) = some (mkToot 50).id :=
  ⟨rfl,
   retoot_intros_cursor_first_page bot2 tagW (some 40) 2 (mkToot 50)
     [mkToot 49, mkToot 48] (some 50) [(some 40, none), (some 40, some 48)]
     [50, 49, 48, 47, 46] rfl rfl⟩

/-- C3: when the first page is shorter than page_size, the scan makes
exactly one batch call (the fetch trace is a single call with max_id
unset) and returns that first page's latest_id; and on an empty first
page (zero posts in the whole scan) the returned cursor is the input
since_id unchanged. -/
theorem retoot_intros_single_batch (bot : WelcomeBot) (hashtag : String)
    (since_id oid lid : Option Nat) (blen : Nat) (calls : List Nat) (fuel : Nat)
    (hb : retoot_batch bot hashtag since_id none = Except.ok (oid, lid, blen, calls))
    (hshort : (pageAt bot hashtag (since_id, none)).length < bot.batch_size) :
    retoot_intros bot hashtag since_id (fuel + 1) =
      some (Except.ok (lid, [(since_id, none)], calls)) ∧
    (pageAt bot hashtag (since_id, none) = [] → lid = since_id) := by
  obtain ⟨-, h2, h3⟩ := retoot_batch_ok_shape bot hashtag since_id none oid lid blen calls hb
  constructor
  · have hbl : blen < bot.batch_size := h3 ▸ hshort
    simp only [retoot_intros, hb, scanGo, hbl, if_true, wrapScan, List.append_nil]
  · intro hemp
    rw [h2, hemp]
    rfl

/-- Witness for C3: a two-toot page with page size 3 ends the scan after
the single fetch, returning that page's latest id 9. -/
theorem retoot_intros_single_batch_witness :
    (retoot_intros botS tagW (some 1) 1 =
        some (Except.ok (some 9, [(some 1, none)], [9])) ∧
      (pageAt botS tagW (some 1, none) = [] → (some 9 : Option Nat) = some 1)) :=
  retoot_intros_single_batch botS tagW (some 1) (some 8) (some 9) 2 [9] 0 rfl (by decide)

/-- The fetch calls of one scan are chained: every call carries the
scan's own since_id, and a further call exists exactly after a full page,
with its max_id equal to the oldest_id reported for the previous call's
page. -/
def calls_chained (bot : WelcomeBot) (hashtag : String) (since_id : Option Nat) :
    List (Option Nat × Option Nat) → Prop
  | [] => True
  | (s, m) :: rest =>
    s = since_id ∧
    (match rest with
     | [] => True
     | (_, m2) :: _ =>
       (pageAt bot hashtag (s, m)).length = bot.batch_size ∧
         m2 = batchOldest since_id (pageAt bot hashtag (s, m))) ∧
    calls_chained bot hashtag since_id rest

/-- The loop's fetch trace is chained, is empty exactly when the loop was
entered with a short page, and otherwise starts with the loop's own
(since_id, max_id) call.  Requires the fetcher to respect its page-size
bound. -/
theorem scanGo_chained (bot : WelcomeBot) (hashtag : String) (since_id lf : Option Nat)
    (hF : ∀ s2 m2 : Option Nat, (pageAt bot hashtag (s2, m2)).length ≤ bot.batch_size) :
    ∀ (fuel : Nat) (m : Option Nat) (bl : Nat) (c : Option Nat)
      (fs : List (Option Nat × Option Nat)) (rbs : List Nat),
      scanGo bot hashtag since_id lf m bl fuel = some (Except.ok (c, fs, rbs)) →
      calls_chained bot hashtag since_id fs ∧
        (bl < bot.batch_size → fs = []) ∧
        (bot.batch_size ≤ bl → ∃ rest, fs = (since_id, m) :: rest) := by
  intro fuel
  induction fuel with
  | zero => intro m bl c fs rbs h; exact absurd h (by simp [scanGo])
  | succ n ih =>
    intro m bl c fs rbs h
    simp only [scanGo] at h
    split at h
    · rename_i hlt
      simp only [Option.some.injEq, Except.ok.injEq, Prod.mk.injEq] at h
      obtain ⟨-, hfs, -⟩ := h
      subst hfs
      exact ⟨trivial, fun _ => rfl, fun hge => absurd hlt (Nat.not_lt.mpr hge)⟩
    · rename_i hnlt
      split at h
      · simp at h
      · rename_i oid lid2 blen calls hbeq
        simp only [wrapScan] at h
        split at h
        · simp at h
        · simp at h
        · rename_i r c2 fs2 rbs2 hr
          simp only [Option.some.injEq, Except.ok.injEq, Prod.mk.injEq] at h
          obtain ⟨-, hfs, -⟩ := h
          subst hfs
          obtain ⟨ihc, ihshort, ihfull⟩ := ih oid blen c2 fs2 rbs2 hr
          obtain ⟨ho, -, hl⟩ :=
            retoot_batch_ok_shape bot hashtag since_id m oid lid2 blen calls hbeq
          refine ⟨⟨rfl, ?_, ihc⟩, fun hlt => absurd hlt hnlt,
            fun _ => ⟨fs2, rfl⟩⟩
          cases hfs2 : fs2 with
          | nil => exact trivial
          | cons p rest3 =>
            have hge : bot.batch_size ≤ blen := by
              by_contra hno
              have := ihshort (Nat.lt_of_not_le hno)
              rw [hfs2] at this
              exact List.cons_ne_nil p rest3 this
            obtain ⟨rest4, hfs4⟩ := ihfull hge
            have hfull : (pageAt bot hashtag (since_id, m)).length = bot.batch_size :=
              Nat.le_antisymm (hF since_id m) (hl ▸ hge)
            rw [hfs2] at hfs4
            obtain ⟨p1, p2⟩ := p
            simp only [List.cons.injEq, Prod.mk.injEq] at hfs4
            exact ⟨hfull, hfs4.1.2 ▸ ho⟩

/-- C2: in every scan the fetch trace starts with (since_id, max_id
unset) and is chained — a further Batch Processor call is made exactly
after a full page, with the same since_id and max_id equal to the
previous call's oldest_id; and in the concrete scenario (page_size 3,
since_id 40, first page ids 50 49 48 all eligible, second page ids 47 46)
the scan returns cursor 50, reblogs 50 49 48 47 46 in that order and
makes exactly 2 batch calls. -/
theorem retoot_intros_paging :
    (∀ (bot : WelcomeBot) (hashtag : String) (since_id : Option Nat) (fuel : Nat)
        (c : Option Nat) (fs : List (Option Nat × Option Nat)) (rbs : List Nat),
        (∀ s2 m2 : Option Nat, (pageAt bot hashtag (s2, m2)).length ≤ bot.batch_size) →
        retoot_intros bot hashtag since_id fuel = some (Except.ok (c, fs, rbs)) →
        (∃ rest, fs = (since_id, none) :: rest) ∧
          calls_chained bot hashtag since_id fs) ∧
    retoot_intros bot2 tagW (some 40) 2 =
      some (Except.ok (some 50, [(some 40, none), (some 40, some 48)],
        [50, 49, 48, 47, 46])) := by
  constructor
  · intro bot hashtag since_id fuel c fs rbs hF h
    simp only [retoot_intros] at h
    cases hb : retoot_batch bot hashtag since_id none with
    | error e => rw [hb] at h; simp at h
    | ok r =>
      obtain ⟨oid, lid, blen, calls⟩ := r
      rw [hb] at h
      simp only [wrapScan] at h
      split at h
      · simp at h
      · simp at h
      · rename_i r c2 fs2 rbs2 hr
        simp only [Option.some.injEq, Except.ok.injEq, Prod.mk.injEq] at h
        obtain ⟨-, hfs, -⟩ := h
        subst hfs
        obtain ⟨ihc, ihshort, ihfull⟩ :=
          scanGo_chained bot hashtag since_id lid hF fuel oid blen c2 fs2 rbs2 hr
        obtain ⟨ho, -, hl⟩ :=
          retoot_batch_ok_shape bot hashtag since_id none oid lid blen calls hb
        refine ⟨⟨fs2, rfl⟩, rfl, ?_, ihc⟩
        cases hfs2 : fs2 with
        | nil => exact trivial
        | cons p rest3 =>
          have hge : bot.batch_size ≤ blen := by
            by_contra hno
            have := ihshort (Nat.lt_of_not_le hno)
            rw [hfs2] at this
            exact List.cons_ne_nil p rest3 this
          obtain ⟨rest4, hfs4⟩ := ihfull hge
          have hfull : (pageAt bot hashtag (since_id, none)).length = bot.batch_size :=
            Nat.le_antisymm (hF since_id none) (hl ▸ hge)
          rw [hfs2] at hfs4
          obtain ⟨p1, p2⟩ := p
          simp only [List.cons.injEq, Prod.mk.injEq] at hfs4
          exact ⟨hfull, hfs4.1.2 ▸ ho⟩
  · rfl

/-- The scenario fetcher respects the page-size bound. -/
theorem client2_page_le (s2 m2 : Option Nat) :
    (pageAt bot2 tagW (s2, m2)).length ≤ bot2.batch_size := by
  simp only [pageAt, bot2, client2]
  split
  · simp
  · split <;> simp

/-- Witness for C2: the scenario's two-call trace starts with (40, none)
and is chained. -/
theorem retoot_intros_paging_witness :
    (∃ rest, [((some 40 : Option Nat), (none : Option Nat)), (some 40, some 48)] =
        ((some 40 : Option Nat), (none : Option Nat)) :: rest) ∧
      calls_chained bot2 tagW (some 40)
        [(some 40, none), (some 40, some 48)] :=
  retoot_intros_paging.1 bot2 tagW (some 40) 2 (some 50)
    [(some 40, none), (some 40, some 48)] [50, 49, 48, 47, 46]
    client2_page_le rfl

/-- Modelled from the spec: the Page Fetcher's lower window bound,
since_id < id (no bound when since_id is absent).  The Page Fetcher is an
external collaborator (the Mastodon API client), specified only at its
interface. -/
def sinceOk : Option Nat → Nat → Bool
  | none, _ => true
  | some s, i => s < i

/-- Modelled from the spec: the Page Fetcher's upper window bound,
id ≤ max_id (no bound when max_id is absent). -/
def maxOk : Option Nat → Nat → Bool
  | none, _ => true
  | some m, i => i ≤ m

/-- Modelled from the spec: the Page Fetcher over a fixed post set held
newest-first — a fetch returns the posts of the window
since_id < id ≤ max_id in order, up to limit posts. -/
def fetchFrom (posts : List Toot) (since_id max_id : Option Nat) (limit : Nat) :
    List Toot :=
  (posts.filter (fun t => sinceOk since_id t.id && maxOk max_id t.id)).take limit

/-- A list whose take is a cons is itself a cons with the same head. -/
theorem take_cons_head {α : Type} {l : List α} {n : Nat} {a : α} {s : List α}
    (h : l.take n = a :: s) : ∃ t, l = a :: t := by
  cases l with
  | nil => simp at h
  | cons b t =>
    cases n with
    | zero => simp at h
    | succ k =>
      refine ⟨t, ?_⟩
      simp only [List.take_succ_cons, List.cons.injEq] at h
      rw [h.1]

/-- Over a fixed newest-first post set, fetching strictly after the
latest_id of a previous fetch-from-x yields nothing: that latest_id is
the newest id in the window, so no post lies strictly above it. -/
theorem fetchFrom_next_empty (posts : List Toot) (x lim : Nat)
    (hsort : posts.Pairwise (fun a b => b.id < a.id)) :
    fetchFrom posts (batchLatest (some x) (fetchFrom posts (some x) none lim))
      none lim = [] := by
  cases hp : fetchFrom posts (some x) none lim with
  | nil => simpa [batchLatest] using hp
  | cons t0 ts =>
    simp only [batchLatest, List.head?_cons]
    obtain ⟨rest2, hfil⟩ := take_cons_head (by simpa [fetchFrom] using hp)
    have hx : x < t0.id := by
      have ht0 : t0 ∈ posts.filter (fun t => sinceOk (some x) t.id && maxOk none t.id) := by
        rw [hfil]
        exact List.mem_cons_self t0 rest2
      have hpt := (List.mem_filter.mp ht0).2
      simp only [sinceOk, maxOk, Bool.and_true, decide_eq_true_eq] at hpt
      exact hpt
    have hpair : ∀ q ∈ rest2, q.id < t0.id := by
      have hpf := hsort.filter (fun t => sinceOk (some x) t.id && maxOk none t.id)
      rw [hfil, List.pairwise_cons] at hpf
      exact hpf.1
    have hfe : posts.filter (fun t => sinceOk (some t0.id) t.id && maxOk none t.id) = [] := by
      rw [List.filter_eq_nil_iff]
      intro p hp2
      simp only [sinceOk, maxOk, Bool.and_true, decide_eq_true_eq]
      intro hgt
      have hpx : p ∈ posts.filter (fun t => sinceOk (some x) t.id && maxOk none t.id) :=
        List.mem_filter.mpr ⟨hp2, by
          simp only [sinceOk, maxOk, Bool.and_true, decide_eq_true_eq]
          exact lt_trans hx hgt⟩
      rw [hfil] at hpx
      rcases List.mem_cons.mp hpx with h1 | h2
      · rw [h1] at hgt
        exact lt_irrefl _ hgt
      · exact Nat.lt_asymm (hpair p h2) hgt
    simp only [fetchFrom, hfe, List.take_nil]

/-- C7: over a fixed newest-first post set served by the spec's Page
Fetcher, a completed scan from since_id x returns a cursor c such that a
second scan from c performs zero reshare actions, makes one fetch, and
returns c again; in particular when c = some x both scans return x. -/
theorem retoot_intros_idempotent (posts : List Toot) (bot : WelcomeBot)
    (hashtag : String) (x : Nat) (fuel : Nat) (c : Option Nat)
    (fs : List (Option Nat × Option Nat)) (rbs : List Nat)
    (hsort : posts.Pairwise (fun a b => b.id < a.id))
    (hcl : bot.client.timeline_hashtag = fun _ s m lim => fetchFrom posts s m lim)
    (hsz : 0 < bot.batch_size)
    (h1 : retoot_intros bot hashtag (some x) fuel = some (Except.ok (c, fs, rbs))) :
    ∀ fuel2 : Nat, retoot_intros bot hashtag c (fuel2 + 1) =
      some (Except.ok (c, [(c, none)], [])) := by
  intro fuel2
  have hc : c = batchLatest (some x) (fetchFrom posts (some x) none bot.batch_size) := by
    simp only [retoot_intros] at h1
    cases hb : retoot_batch bot hashtag (some x) none with
    | error e => rw [hb] at h1; simp at h1
    | ok r =>
      obtain ⟨oid, lid, blen, calls⟩ := r
      rw [hb] at h1
      obtain ⟨-, h2, -⟩ :=
        retoot_batch_ok_shape bot hashtag (some x) none oid lid blen calls hb
      simp only [wrapScan] at h1
      split at h1
      · simp at h1
      · simp at h1
      · rename_i r c2 fs2 rbs2 hr
        simp only [Option.some.injEq, Except.ok.injEq, Prod.mk.injEq] at h1
        obtain ⟨hcc, -, -⟩ := h1
        subst hcc
        rw [scanGo_ok_cursor bot hashtag (some x) lid fuel oid blen _ _ _ hr, h2]
        simp [pageAt, hcl]
  have hempty : pageAt bot hashtag (c, none) = [] := by
    rw [hc]
    simp only [pageAt, hcl]
    exact fetchFrom_next_empty posts x bot.batch_size hsort
  have hb2 : retoot_batch bot hashtag c none = Except.ok (c, c, 0, []) :=
    retoot_batch_empty_page bot hashtag c none hempty
  simp only [retoot_intros, hb2, scanGo, hsz, if_true, wrapScan, List.append_nil]

/-- The fixed post set of the idempotence witness. -/
def postsW : List Toot := [mkToot 50, mkToot 49]

/-- The spec Page Fetcher over postsW; reblog never fails. -/
def clientP : Client := ⟨fun _ s m lim => fetchFrom postsW s m lim, fun _ => false⟩

/-- A live bot over clientP with page size 3. -/
def botP : WelcomeBot := ⟨clientP, 3, false⟩

/-- Witness for C7: after the scan from 40 returned cursor 50, a second
scan from 50 makes one empty fetch, reblogs nothing and returns 50. -/
theorem retoot_intros_idempotent_witness :
    retoot_intros botP tagW (some 50) 1 =
      some (Except.ok (some 50, [(some 50, none)], [])) :=
  retoot_intros_idempotent postsW botP tagW 40 1 (some 50) [(some 40, none)]
    [50, 49] (by decide) rfl (by decide) rfl 0
